import Mathlib

/-!
Verification of the lotus blocksync client and the `DealMapping` CBOR codec.

The definitions below are shallow embeddings of the Go source:
  * `src/unnamed/part_000` — the cbor-gen generated `MarshalCBOR` /
    `UnmarshalCBOR` methods of `DealMapping` (package `sector`);
  * `src/chain/blocksync/blocksync_client.go` — the blocksync client.

Bytes are modelled as natural numbers below 256, byte streams as `List Nat`,
and fallible Go functions as `Except String` values carrying the exact
`fmt.Errorf` / `xerrors.Errorf` message produced by the source.
-/

set_option maxHeartbeats 1000000

namespace Lotus

/-! ## CBOR wire model (the cbor-gen helpers used by the generated code)

`readHeader` models `cbg.CborReadHeader`: it reads one initial byte, takes the
major type from the top three bits and the additional-info value from the low
five bits, and reads 1, 2, 4 or 8 further big-endian bytes when the
additional info is 24, 25, 26 or 27.  `writeMajor` models
`cbg.CborEncodeMajorType` / `cbg.CborWriteHeader`, which emit the minimal
encoding of a major type together with a `uint64` value. -/

def readHeader : List Nat → Except String (Nat × Nat × List Nat)
  | [] => .error "EOF"
  | b :: rest =>
    if b % 32 < 24 then .ok (b / 32, b % 32, rest)
    else if b % 32 = 24 then
      match rest with
      | x :: r => .ok (b / 32, x, r)
      | _ => .error "EOF"
    else if b % 32 = 25 then
      match rest with
      | x1 :: x0 :: r => .ok (b / 32, x1 * 256 + x0, r)
      | _ => .error "EOF"
    else if b % 32 = 26 then
      match rest with
      | x3 :: x2 :: x1 :: x0 :: r =>
        .ok (b / 32, x3 * 16777216 + x2 * 65536 + x1 * 256 + x0, r)
      | _ => .error "EOF"
    else if b % 32 = 27 then
      match rest with
      | x7 :: x6 :: x5 :: x4 :: x3 :: x2 :: x1 :: x0 :: r =>
        .ok (b / 32,
          x7 * 72057594037927936 + x6 * 281474976710656 + x5 * 1099511627776 +
            x4 * 4294967296 + x3 * 16777216 + x2 * 65536 + x1 * 256 + x0, r)
      | _ => .error "EOF"
    else .error "invalid header"

def writeMajor (maj v : Nat) : List Nat :=
  if v < 24 then [maj * 32 + v]
  else if v < 256 then [maj * 32 + 24, v]
  else if v < 65536 then [maj * 32 + 25, v / 256, v % 256]
  else if v < 4294967296 then
    [maj * 32 + 26, v / 16777216, v / 65536 % 256, v / 256 % 256, v % 256]
  else
    [maj * 32 + 27, v / 72057594037927936, v / 281474976710656 % 256,
      v / 1099511627776 % 256, v / 4294967296 % 256, v / 16777216 % 256,
      v / 65536 % 256, v / 256 % 256, v % 256]

/-! ## DealMapping and its generated codec (src/unnamed/part_000)

`DealMapping` carries a `uint64` slice, a `uint64` and a `bool`.  Go `uint64`
values are modelled as `Nat`; the encoder is only claimed correct for values
below `2^64`, which is automatic on the Go side. -/

structure DealMapping where
  DealIDs : List Nat
  Allocated : Nat
  Committed : Bool
deriving DecidableEq

/-- The element-encoding loop of `MarshalCBOR` over `t.DealIDs`. -/
def writeUints : List Nat → List Nat
  | [] => []
  | v :: r => writeMajor 0 v ++ writeUints r

/-- Model of `MarshalCBOR` on a non-nil receiver: the byte 131 (a 3-element
array header), the `DealIDs` array header and elements, the `Allocated`
unsigned integer, and the boolean byte (245 for true, 244 for false,
following `cbg.WriteBool`). -/
def marshalDealMapping (t : DealMapping) : List Nat :=
  131 :: (writeMajor 4 t.DealIDs.length ++
    (writeUints t.DealIDs ++
      (writeMajor 0 t.Allocated ++ [if t.Committed then 245 else 244])))

/-- The `DealIDs` element-reading loop of `UnmarshalCBOR`: reads `n` unsigned
integer headers, failing on a read error (wrapped with the slice-read message)
or on a non-uint major type. -/
def readUints : Nat → List Nat → Except String (List Nat × List Nat)
  | 0, rest => .ok ([], rest)
  | n + 1, rest =>
    match readHeader rest with
    | .error e => .error ("failed to read uint64 for t.DealIDs slice: " ++ e)
    | .ok (maj, val, r) =>
      if maj ≠ 0 then
        .error ("value read for array t.DealIDs was not a uint, instead got " ++
          toString maj)
      else
        match readUints n r with
        | .error e => .error e
        | .ok (vs, r2) => .ok (val :: vs, r2)

/-- Model of `UnmarshalCBOR`, returning the decoded value together with the
unconsumed bytes.  The guard order follows the source: for the `DealIDs`
header the `extra > 8192` length check comes before the major-type check. -/
def unmarshalDealMapping (input : List Nat) : Except String (DealMapping × List Nat) :=
  match readHeader input with
  | .error e => .error e
  | .ok (maj, extra, r1) =>
    if maj ≠ 4 then .error "cbor input should be of type array"
    else if extra ≠ 3 then .error "cbor input had wrong number of fields"
    else
      match readHeader r1 with
      | .error e => .error e
      | .ok (maj2, extra2, r2) =>
        if 8192 < extra2 then
          .error ("t.DealIDs: array too large (" ++ toString extra2 ++ ")")
        else if maj2 ≠ 4 then .error "expected cbor array"
        else
          match readUints extra2 r2 with
          | .error e => .error e
          | .ok (ids, r3) =>
            match readHeader r3 with
            | .error e => .error e
            | .ok (maj3, extra3, r4) =>
              if maj3 ≠ 0 then .error "wrong type for uint64 field"
              else
                match readHeader r4 with
                | .error e => .error e
                | .ok (maj4, extra4, r5) =>
                  if maj4 ≠ 7 then .error "booleans must be major type 7"
                  else if extra4 = 20 then .ok (⟨ids, extra3, false⟩, r5)
                  else if extra4 = 21 then .ok (⟨ids, extra3, true⟩, r5)
                  else
                    .error ("booleans are either major type 7, value 20 or 21 (got " ++
                      toString extra4 ++ ")")

/-- A `DealMapping` whose deal-id list has exactly 8192 elements, the largest
length the decoder accepts. -/
def dm8192 : DealMapping := ⟨List.replicate 8192 0, 0, false⟩

/-! ## Blocksync client data model (src/chain/blocksync/blocksync_client.go)

Content identifiers are opaque values, modelled as `Nat`.  Peer identifiers
are likewise modelled as `Nat`.  Raw wire messages are modelled as opaque
`Nat` values (the client never inspects them on the paths under proof). -/

/-- A decoded block header: its own cid, its parents tipset key, its height.
Modelled from the spec: `types.BlockHeader` is not part of the sources; the
spec requires exactly these exposed fields. -/
structure BlockHeader where
  cid : Nat
  parents : List Nat
  height : Nat
deriving DecidableEq

/-- Insertion of one cid into a sorted cid list (ascending). -/
def insertSorted (x : Nat) : List Nat → List Nat
  | [] => [x]
  | y :: r => if x ≤ y then x :: y :: r else y :: insertSorted x r

/-- Sorted content identifiers of a list of blocks, used as the tipset key. -/
def sortCids (l : List Nat) : List Nat := l.foldr insertSorted []

/-- A validated tipset: the member blocks, the tipset key (sorted member
cids), the shared parents key and the shared height. -/
structure TipSet where
  blocks : List BlockHeader
  cids : List Nat
  parents : List Nat
  height : Nat
deriving DecidableEq

/-- Modelled from the spec: `types.NewTipSet` is not part of the sources.
The spec's smart constructor fails on an empty block list and when the
members disagree on parents or height; the tipset key is the sorted list of
member cids. -/
def NewTipSet (blks : List BlockHeader) : Except String TipSet :=
  match blks with
  | [] => .error "tipset must contain at least one block"
  | b :: rest =>
    if rest.all (fun b2 => b2.parents == b.parents && b2.height == b.height) then
      .ok ⟨blks, sortCids (blks.map (fun b2 => b2.cid)), b.parents, b.height⟩
    else .error "mismatching block parents or heights in tipset"

/-- Modelled from the spec: `types.CidArrsEqual` is not part of the sources;
it compares two cid sequences element-wise in order. -/
def cidArrsEqual : List Nat → List Nat → Bool
  | [], [] => true
  | x :: xs, y :: ys => x == y && cidArrsEqual xs ys
  | _, _ => false

/-- A wire tipset (`BSTipSet`): raw block headers plus per-block message
bundles.  Messages are opaque; index arrays are aligned to `Blocks`. -/
structure BSTipSet where
  Blocks : List BlockHeader
  BlsMessages : List Nat := []
  BlsMsgIncludes : List (List Nat) := []
  SecpkMessages : List Nat := []
  SecpkMsgIncludes : List (List Nat) := []
deriving DecidableEq

structure BlockSyncRequest where
  Start : List Nat
  RequestLength : Nat
  Options : Nat
deriving DecidableEq

structure BlockSyncResponse where
  Status : Nat
  Message : String
  Chain : List BSTipSet
deriving DecidableEq

/-- Modelled from the spec: the status codes and option bits are declared in
a sibling file absent from the sources; the values appear in the spec and as
literals in `GetFullTipSet`. -/
def StatusOK : Nat := 0

def StatusPartialResponse : Nat := 101

def StatusNotFound : Nat := 201

def StatusGoAway : Nat := 202

def StatusInternalError : Nat := 203

def StatusBadRequest : Nat := 204

def BSOptBlocks : Nat := 1

def BSOptMessages : Nat := 2

/-- `processStatus`: maps a non-success response status to the error message
the source produces.  The request argument is accepted and unused, as in the
source (its `FIXME: Check request`). -/
def processStatus (req : BlockSyncRequest) (res : BlockSyncResponse) : String :=
  if res.Status = StatusPartialResponse then
    "not handling partial blocksync responses yet"
  else if res.Status = StatusNotFound then "not found"
  else if res.Status = StatusGoAway then
    -- The source quotes the words go away in this message.
    "not handling go away blocksync responses yet"
  else if res.Status = StatusInternalError then
    "block sync peer errored: " ++ res.Message
  else if res.Status = StatusBadRequest then
    "block sync request invalid: " ++ res.Message
  else "unrecognized response code: " ++ toString res.Status

/-- The linkage error message of `processBlocksResponse`. -/
def mkLinkErr (a b : Nat) : String :=
  "parents of tipset[" ++ toString a ++ "] were not tipset[" ++ toString b ++ "]"

/-- The validation loop of `processBlocksResponse` over `res.Chain[1:]`:
`cur` is the previously built tipset and `bi` the index of the element about
to be processed. -/
def processChainRest (cur : TipSet) (rest : List BSTipSet) (bi : Nat) :
    Except String (List TipSet) :=
  match rest with
  | [] => .ok []
  | bts :: more =>
    match NewTipSet bts.Blocks with
    | .error e => .error e
    | .ok nts =>
      if cidArrsEqual cur.parents nts.cids then
        match processChainRest nts more (bi + 1) with
        | .error e => .error e
        | .ok out => .ok (nts :: out)
      else .error (mkLinkErr (bi - 1) bi)

/-- `processBlocksResponse`: rejects an empty chain, builds each tipset via
the smart constructor, and enforces parent linkage between adjacent tipsets.
The request argument is accepted and unused, as in the source. -/
def processBlocksResponse (req : BlockSyncRequest) (res : BlockSyncResponse) :
    Except String (List TipSet) :=
  match res.Chain with
  | [] => .error "got no blocks in successful blocksync response"
  | first :: rest =>
    match NewTipSet first.Blocks with
    | .error e => .error e
    | .ok cur =>
      match processChainRest cur rest 1 with
      | .error e => .error e
      | .ok out => .ok (cur :: out)

/-- Building every chain element through the smart constructor, with no
linkage check; used to state what a response whose tipsets are all
individually well-formed decodes to. -/
def buildTipSets : List BSTipSet → Except String (List TipSet)
  | [] => .ok []
  | bts :: more =>
    match NewTipSet bts.Blocks with
    | .error e => .error e
    | .ok nts =>
      match buildTipSets more with
      | .error e => .error e
      | .ok out => .ok (nts :: out)

/-! ## Request engine (GetBlocks / GetChainMessages)

`sendRequestToPeer` touches the network; it is modelled as an oracle
`send : Nat → Except String BlockSyncResponse` giving, per peer, either the
transport-level error or the decoded response.  Context cancellation is
modelled as an oracle `cancelled : Nat → Bool` indexed by the loop iteration:
`cancelled i` is what a `ctx.Done()` poll at the start of iteration `i` would
observe.  Each loop additionally returns the list of peers a request was
actually sent to, so that the absence of further stream opens is visible in
the model. -/

/-- `%w`-wrapping of a possibly nil error, as `xerrors.Errorf` renders it. -/
def errOrNil : Option String → String
  | some e => e
  | none => "%!w(<nil>)"

/-- The peer loop of `GetBlocks` (lines 103-135): poll cancellation, send,
absorb transport errors and non-success statuses into `oerr`, and hand
`OK`/`PARTIAL` responses to `processBlocksResponse`. -/
def getBlocksLoop (send : Nat → Except String BlockSyncResponse)
    (cancelled : Nat → Bool) (req : BlockSyncRequest) :
    List Nat → Nat → Option String → Except String (List TipSet) × List Nat
  | [], _, oerr =>
    (.error ("GetBlocks failed with all peers: " ++ errOrNil oerr), [])
  | p :: rest, i, oerr =>
    if cancelled i then
      (.error "blocksync getblocks failed: context canceled", [])
    else
      match send p with
      | .error e =>
        let r := getBlocksLoop send cancelled req rest (i + 1) (some e)
        (r.1, p :: r.2)
      | .ok res =>
        if res.Status = StatusOK ∨ res.Status = StatusPartialResponse then
          match processBlocksResponse req res with
          | .error e =>
            (.error ("success response from peer failed to process: " ++ e), [p])
          | .ok out => (.ok out, [p])
        else
          let r := getBlocksLoop send cancelled req rest (i + 1)
            (some (processStatus req res))
          (r.1, p :: r.2)

/-- `GetBlocks` after peer selection: the `peers` argument is the
preference-sorted, prefix-shuffled peer list. -/
def getBlocks (send : Nat → Except String BlockSyncResponse)
    (cancelled : Nat → Bool) (req : BlockSyncRequest) (peers : List Nat) :
    Except String (List TipSet) × List Nat :=
  getBlocksLoop send cancelled req peers 0 none

/-- The peer loop of `GetChainMessages` (lines 209-231).  The source loop
contains no cancellation poll; the `cancelled` oracle is accepted and never
consulted.  `total` is the length of the full peer list, used in the final
error message. -/
def getChainMessagesLoop (send : Nat → Except String BlockSyncResponse)
    (cancelled : Nat → Bool) (req : BlockSyncRequest) (total : Nat) :
    List Nat → Nat → Option String → Except String (List BSTipSet) × List Nat
  | [], _, oerr =>
    (match oerr with
      | none => .error "GetChainMessages failed, no peers connected"
      | some e =>
        .error ("GetChainMessages failed with all peers(" ++ toString total ++ "): " ++ e),
     [])
  | p :: rest, i, oerr =>
    match send p with
    | .error e =>
      let r := getChainMessagesLoop send cancelled req total rest (i + 1) (some e)
      (r.1, p :: r.2)
    | .ok res =>
      if res.Status = StatusOK then (.ok res.Chain, [p])
      else if res.Status = StatusPartialResponse then (.ok res.Chain, [p])
      else
        let r := getChainMessagesLoop send cancelled req total rest (i + 1)
          (some (processStatus req res))
        (r.1, p :: r.2)

/-- `GetChainMessages` after peer selection. -/
def getChainMessages (send : Nat → Except String BlockSyncResponse)
    (cancelled : Nat → Bool) (req : BlockSyncRequest) (peers : List Nat) :
    Except String (List BSTipSet) × List Nat :=
  getChainMessagesLoop send cancelled req peers.length peers 0 none

/-- The prefix-shuffling helper of the peer loops (lines 176-190; its source
name ends in the word Prefix).  `rand.Perm(pref)` is modelled by the `perm`
argument, a permutation of `0, ..., pref - 1`; entry `i` of the new prefix is
entry `perm[i]` of the old list, and `copy` overwrites exactly the first
`pref` entries. -/
def shufflePref (perm : List Nat) (peers : List Nat) : List Nat :=
  (perm.map (fun v => peers.getD v 0)) ++ peers.drop (min 5 peers.length)

/-! ## Stream transport (fetchBlocksBlockSync) -/

/-- The peer-tracker calls `fetchBlocksBlockSync` can make: `RemovePeer`
(which drops the peer from tracking), `logFailure`, `logSuccess`. -/
inductive TrackerReport where
  | removePeer
  | logFailure
  | logSuccess
deriving DecidableEq

/-- `fetchBlocksBlockSync` (lines 295-344) with its three I/O steps as
oracles: stream open, request write, response read+decode.  Returns the
call's result together with the tracker reports made, in order. -/
def fetchBlocksBlockSync (openR writeR : Except String Unit)
    (readR : Except String BlockSyncResponse) :
    Except String BlockSyncResponse × List TrackerReport :=
  match openR with
  | .error e => (.error ("failed to open stream to peer: " ++ e), [.removePeer])
  | .ok _ =>
    match writeR with
    | .error e => (.error e, [.logFailure])
    | .ok _ =>
      match readR with
      | .error e => (.error e, [.logFailure])
      | .ok res => (.ok res, [.logSuccess])

/-- The tracker report the spec prescribes for each outcome: open failure
removes the peer, write or read failure logs a failure, a decoded response
logs a success.  Stated from the spec's words, to be compared with the
source model. -/
def trackerReportSpec (openR writeR : Except String Unit)
    (readR : Except String BlockSyncResponse) : TrackerReport :=
  match openR with
  | .error _ => .removePeer
  | .ok _ =>
    match writeR with
    | .error _ => .logFailure
    | .ok _ =>
      match readR with
      | .error _ => .logFailure
      | .ok _ => .logSuccess

/-! ## Message fetcher (fetchCids and its callers) -/

/-- A block returned by the block service: its cid and its raw bytes. -/
structure Block where
  cid : Nat
  raw : List Nat
deriving DecidableEq

/-- The `cidIndex` map built by `fetchCids`: later occurrences of a cid
overwrite earlier ones, as in the Go map-building loop. -/
def buildCidIndex (cids : List Nat) : Nat → Option Nat :=
  cids.enum.foldl (fun m ic => fun c => if c = ic.2 then some ic.1 else m c)
    (fun _ => none)

/-- The receive loop of `fetchCids` (lines 468-492).  `stream` is the
sequence of blocks the block-service channel delivers before closing; `i` is
the loop counter, bounded by `n = len(cids)`.  When the channel is found
closed at `i = n - 1` the Go code breaks out of the select and the loop
exits normally, so the call succeeds; a close at any earlier `i` fails. -/
def fetchCidsGo {σ : Type} (cidIndex : Nat → Option Nat) (n : Nat)
    (cb : Nat → Block → σ → Except String σ) :
    Nat → List Block → σ → Except String σ
  | i, [], st =>
    if i < n then
      if i = n - 1 then .ok st else .error "failed to fetch all messages"
    else .ok st
  | i, b :: rest, st =>
    if i < n then
      match cidIndex b.cid with
      | none => .error "received message we didnt ask for"
      | some ix =>
        match cb ix b st with
        | .error e => .error e
        | .ok st2 => fetchCidsGo cidIndex n cb (i + 1) rest st2
    else .ok st

/-- `fetchCids` (lines 455-495): note the source passes `context.TODO()` to
the block service, so the calling context is never consulted here. -/
def fetchCids {σ : Type} (cids : List Nat)
    (cb : Nat → Block → σ → Except String σ) (stream : List Block) (init : σ) :
    Except String σ :=
  fetchCidsGo (buildCidIndex cids) cids.length cb 0 stream init

/-- `FetchMessagesByCids` / `FetchSignedMessagesByCids` (lines 402-447),
generic in the decode callback: `out` starts as an all-`none` array of
length `len(cids)`; each received block is decoded, checked against a
duplicate delivery, and placed at its requested index.  On any error the
functions return no output at all. -/
def fetchMessagesByCids {α : Type} (decode : Block → Except String α)
    (cids : List Nat) (stream : List Block) : Except String (List (Option α)) :=
  match fetchCids cids
      (fun i b out =>
        match decode b with
        | .error e => .error e
        | .ok msg =>
          if (out.getD i none).isSome then .error "received duplicate message"
          else .ok (out.set i (some msg)))
      stream (List.replicate cids.length none) with
  | .error e => .error e
  | .ok out => .ok out

/-! ## Concrete fixtures used by individual claims -/

/-- C1 fixture: a request asking for a single tipset starting at cid 99. -/
def c1Req : BlockSyncRequest := ⟨[99], 1, BSOptBlocks⟩

/-- C1 fixture: every peer answers `OK` with a correctly linked 2-tipset
chain that does not start at the requested key. -/
def c1Send : Nat → Except String BlockSyncResponse := fun _ =>
  .ok ⟨0, "", [⟨[⟨1, [2], 10⟩], [], [], [], []⟩, ⟨[⟨2, [3], 9⟩], [], [], [], []⟩]⟩

def c1Ts1 : TipSet := ⟨[⟨1, [2], 10⟩], [1], [2], 10⟩

def c1Ts2 : TipSet := ⟨[⟨2, [3], 9⟩], [2], [3], 9⟩

/-- C2 fixture request (the source never reads it). -/
def c2Req : BlockSyncRequest := ⟨[99], 5, BSOptBlocks⟩

/-- C2 fixture: a response whose two tipsets are correctly linked. -/
def c2ResGood : BlockSyncResponse :=
  ⟨0, "", [⟨[⟨1, [2], 10⟩], [], [], [], []⟩, ⟨[⟨2, [3], 9⟩], [], [], [], []⟩]⟩

def c2OutGood : List TipSet := [⟨[⟨1, [2], 10⟩], [1], [2], 10⟩, ⟨[⟨2, [3], 9⟩], [2], [3], 9⟩]

/-- C2 fixture: a response whose second tipset (cid 5) is not the parent
(cid 2) of the first. -/
def c2ResBad : BlockSyncResponse :=
  ⟨0, "", [⟨[⟨1, [2], 10⟩], [], [], [], []⟩, ⟨[⟨5, [6], 9⟩], [], [], [], []⟩]⟩

def c2TsBad : List TipSet := [⟨[⟨1, [2], 10⟩], [1], [2], 10⟩, ⟨[⟨5, [6], 9⟩], [5], [6], 9⟩]

/-- C4 fixture: a wire tipset. -/
def c4Bsts : BSTipSet := ⟨[⟨1, [2], 10⟩], [], [], [], []⟩

/-- C4 fixture: every peer answers `OK` with a one-element chain. -/
def c4Send : Nat → Except String BlockSyncResponse := fun _ => .ok ⟨0, "", [c4Bsts]⟩

def c4Req : BlockSyncRequest := ⟨[99], 5, BSOptMessages⟩

/-- C5 fixture: every peer answers status `OK` with an empty chain. -/
def c5Send : Nat → Except String BlockSyncResponse := fun _ => .ok ⟨0, "", []⟩

def c5Req : BlockSyncRequest := ⟨[99], 5, BSOptBlocks⟩

/-! ## Helper lemmas -/

/-- Decoding a header written by `writeMajor` recovers the major type, the
value and the remaining bytes, for any `uint64` value. -/
theorem readHeader_writeMajor (maj v : Nat) (hm : maj < 8)
    (hv : v < 18446744073709551616) (rest : List Nat) :
    readHeader (writeMajor maj v ++ rest) = .ok (maj, v, rest) := by
  unfold writeMajor
  by_cases h1 : v < 24
  · simp only [if_pos h1, List.cons_append, List.nil_append, readHeader]
    have e1 : (maj * 32 + v) % 32 = v := by omega
    have e2 : (maj * 32 + v) / 32 = maj := by omega
    rw [e1, e2, if_pos h1]
  · by_cases h2 : v < 256
    · simp only [if_neg h1, if_pos h2, List.cons_append, List.nil_append, readHeader]
      have e1 : (maj * 32 + 24) % 32 = 24 := by omega
      have e2 : (maj * 32 + 24) / 32 = maj := by omega
      rw [e1, e2]
      simp
    · by_cases h3 : v < 65536
      · simp only [if_neg h1, if_neg h2, if_pos h3, List.cons_append, List.nil_append,
          readHeader]
        have e1 : (maj * 32 + 25) % 32 = 25 := by omega
        have e2 : (maj * 32 + 25) / 32 = maj := by omega
        rw [e1, e2]
        have e3 : v / 256 * 256 + v % 256 = v := by omega
        simp [e3]
      · by_cases h4 : v < 4294967296
        · simp only [if_neg h1, if_neg h2, if_neg h3, if_pos h4, List.cons_append,
            List.nil_append, readHeader]
          have e1 : (maj * 32 + 26) % 32 = 26 := by omega
          have e2 : (maj * 32 + 26) / 32 = maj := by omega
          rw [e1, e2]
          have e3 : v / 16777216 * 16777216 + v / 65536 % 256 * 65536 +
              v / 256 % 256 * 256 + v % 256 = v := by omega
          simp [e3]
        · simp only [if_neg h1, if_neg h2, if_neg h3, if_neg h4, List.cons_append,
            List.nil_append, readHeader]
          have e1 : (maj * 32 + 27) % 32 = 27 := by omega
          have e2 : (maj * 32 + 27) / 32 = maj := by omega
          rw [e1, e2]
          have e3 : v / 72057594037927936 * 72057594037927936 +
              v / 281474976710656 % 256 * 281474976710656 +
              v / 1099511627776 % 256 * 1099511627776 +
              v / 4294967296 % 256 * 4294967296 +
              v / 16777216 % 256 * 16777216 +
              v / 65536 % 256 * 65536 + v / 256 % 256 * 256 + v % 256 = v := by
            omega
          simp [e3]

/-- Reading back the element loop's output recovers the encoded list. -/
theorem readUints_writeUints (l : List Nat)
    (h : ∀ v ∈ l, v < 18446744073709551616) (rest : List Nat) :
    readUints l.length (writeUints l ++ rest) = .ok (l, rest) := by
  induction l with
  | nil => simp [writeUints, readUints]
  | cons v r ih =>
    have hv : v < 18446744073709551616 := h v (List.mem_cons_self v r)
    have hr : ∀ x ∈ r, x < 18446744073709551616 := fun x hx => h x (List.mem_cons_of_mem v hx)
    simp only [writeUints, List.length_cons, List.append_assoc]
    rw [readUints, readHeader_writeMajor 0 v (by omega) hv]
    simp [ih hr]

/-- Round trip of the generated codec against arbitrary trailing bytes. -/
theorem unmarshal_marshal (t : DealMapping) (h1 : t.DealIDs.length ≤ 8192)
    (h2 : ∀ v ∈ t.DealIDs, v < 18446744073709551616)
    (h3 : t.Allocated < 18446744073709551616) (rest : List Nat) :
    unmarshalDealMapping (marshalDealMapping t ++ rest) = .ok (t, rest) := by
  obtain ⟨ids, alloc, cm⟩ := t
  simp only at h1 h2 h3
  have h131 : ∀ xs : List Nat, readHeader (131 :: xs) = .ok (4, 3, xs) := by
    intro xs; simp [readHeader]
  rw [marshalDealMapping]
  simp only [List.cons_append, List.append_assoc]
  rw [unmarshalDealMapping, h131]
  dsimp only
  simp only [ne_eq, reduceIte]
  rw [readHeader_writeMajor 4 ids.length (by omega) (by omega)]
  dsimp only
  have hlen : ¬ (8192 < ids.length) := by omega
  simp only [if_neg hlen, ne_eq, reduceIte]
  rw [readUints_writeUints ids h2]
  dsimp only
  rw [readHeader_writeMajor 0 alloc (by omega) h3]
  dsimp only
  simp only [ne_eq, reduceIte]
  cases cm with
  | false =>
    have h244 : ∀ xs : List Nat, readHeader (244 :: xs) = .ok (7, 20, xs) := by
      intro xs; simp [readHeader]
    simp [h244]
  | true =>
    have h245 : ∀ xs : List Nat, readHeader (245 :: xs) = .ok (7, 21, xs) := by
      intro xs; simp [readHeader]
    simp [h245]

/-- `cidArrsEqual` decides equality of cid sequences. -/
theorem cidArrsEqual_eq_true (xs ys : List Nat) :
    cidArrsEqual xs ys = true ↔ xs = ys := by
  induction xs generalizing ys with
  | nil => cases ys <;> simp [cidArrsEqual]
  | cons x xs ih => cases ys <;> simp [cidArrsEqual, ih]

/-- Soundness of the validation loop: a successful run yields a chain whose
adjacent tipsets are linked, starting from `cur`. -/
theorem processChainRest_chain (rest : List BSTipSet) :
    ∀ (cur : TipSet) (bi : Nat) (out : List TipSet),
      processChainRest cur rest bi = .ok out →
      List.Chain' (fun t u => t.parents = u.cids) (cur :: out) := by
  induction rest with
  | nil =>
    intro cur bi out h
    simp only [processChainRest] at h
    cases h
    simp
  | cons bts more ih =>
    intro cur bi out h
    simp only [processChainRest] at h
    split at h
    next e hnts => cases h
    next nts hnts =>
      split at h
      next hlink =>
        split at h
        next e2 hrec => cases h
        next out2 hrec =>
          cases h
          rw [List.chain'_cons]
          exact ⟨(cidArrsEqual_eq_true _ _).1 hlink, ih nts (bi + 1) out2 hrec⟩
      next hlink => cases h

/-- Completeness of the mismatch path: if every chain element builds but the
linkage fails somewhere, the loop returns a bad-linkage error naming an
adjacent index pair. -/
theorem processChainRest_mismatch (rest : List BSTipSet) :
    ∀ (cur : TipSet) (bi : Nat) (ts : List TipSet),
      1 ≤ bi →
      buildTipSets rest = .ok ts →
      ¬ List.Chain' (fun t u => t.parents = u.cids) (cur :: ts) →
      ∃ j, processChainRest cur rest bi = .error (mkLinkErr j (j + 1)) := by
  induction rest with
  | nil =>
    intro cur bi ts hbi hb hnc
    simp only [buildTipSets] at hb
    cases hb
    exact absurd (by simp) hnc
  | cons bts more ih =>
    intro cur bi ts hbi hb hnc
    simp only [buildTipSets] at hb
    split at hb
    next e hnts => cases hb
    next nts hnts =>
      split at hb
      next e2 hmore => cases hb
      next ts2 hmore =>
        cases hb
        by_cases hlink : cidArrsEqual cur.parents nts.cids
        · have hR : cur.parents = nts.cids := (cidArrsEqual_eq_true _ _).1 hlink
          have hnc2 : ¬ List.Chain' (fun t u => t.parents = u.cids) (nts :: ts2) := by
            intro hc
            exact hnc (List.chain'_cons.2 ⟨hR, hc⟩)
          obtain ⟨j, hj⟩ := ih nts (bi + 1) ts2 (by omega) hmore hnc2
          refine ⟨j, ?_⟩
          simp only [processChainRest, hnts, if_pos hlink, hj]
        · refine ⟨bi - 1, ?_⟩
          have hbi2 : bi - 1 + 1 = bi := by omega
          simp only [processChainRest, hnts, if_neg hlink, hbi2]

/-- Indexing by `0, ..., k-1` with the out-of-range default reproduces the
`k`-element front of a list. -/
theorem map_getD_range (l : List Nat) (k : Nat) (hk : k ≤ l.length) :
    (List.range k).map (fun v => l.getD v 0) = l.take k := by
  apply List.ext_getElem
  · simp [hk]
  · intro i h1 h2
    have hi : i < k := by simpa using h1
    have hil : i < l.length := lt_of_lt_of_le hi hk
    simp [List.getD_eq_getElem?_getD, List.getElem?_eq_getElem hil]

/-- `getChainMessagesLoop` never consults the cancellation oracle. -/
theorem gcmLoop_cancel_irrelevant (send : Nat → Except String BlockSyncResponse)
    (req : BlockSyncRequest) (total : Nat) (c1 c2 : Nat → Bool) :
    ∀ (peers : List Nat) (j : Nat) (oe : Option String),
      getChainMessagesLoop send c1 req total peers j oe =
        getChainMessagesLoop send c2 req total peers j oe := by
  intro peers
  induction peers with
  | nil => intro j oe; rfl
  | cons q qs ih =>
    intro j oe
    rw [getChainMessagesLoop, getChainMessagesLoop]
    cases hq : send q with
    | error e => simp only [ih]
    | ok res =>
      by_cases hs1 : res.Status = StatusOK
      · simp [hs1]
      · by_cases hs2 : res.Status = StatusPartialResponse
        · simp [hs1, hs2]
        · simp only [hs1, hs2, if_false, ih]

/-! ## Claim theorems -/

/-- C1: contrary to the claim, a successful `GetBlocks` call enforces neither
`len(result) ≤ RequestLength` nor `result[0].cids = Start`: with a request
for one tipset starting at cid 99, a peer answering a correctly linked
2-tipset chain starting at cid 1 is accepted, and both bounds of the claim
fail.  The source marks the missing check (`FIXME: Check request`), and the
`GetBlocks` doc comment promises as many tipsets as `count`. -/
theorem getBlocks_ignores_request_bounds :
    (getBlocks c1Send (fun _ => false) c1Req [0]).1 = .ok [c1Ts1, c1Ts2]
    ∧ c1Req.RequestLength < ([c1Ts1, c1Ts2] : List TipSet).length
    ∧ c1Ts1.cids ≠ c1Req.Start := by
  refine ⟨rfl, by decide, by decide⟩

/-- C2: every list returned by `processBlocksResponse` has its adjacent
tipsets linked (`result[i].parents = result[i+1].cids` as ordered
sequences); and whenever the chain's tipsets all build but some adjacent
pair is unlinked, the call fails with the bad-linkage error naming an
adjacent index pair, returning no tipsets. -/
theorem processBlocksResponse_linkage (req : BlockSyncRequest) (res : BlockSyncResponse) :
    (∀ out, processBlocksResponse req res = .ok out →
      List.Chain' (fun t u => t.parents = u.cids) out)
    ∧ (∀ ts, buildTipSets res.Chain = .ok ts →
      ¬ List.Chain' (fun t u => t.parents = u.cids) ts →
      ∃ j, processBlocksResponse req res = .error (mkLinkErr j (j + 1))) := by
  constructor
  · intro out h
    simp only [processBlocksResponse] at h
    split at h
    next hchain => cases h
    next first rest hchain =>
      split at h
      next e hcur => cases h
      next cur hcur =>
        split at h
        next e2 hrec => cases h
        next out2 hrec =>
          cases h
          exact processChainRest_chain rest cur 1 out2 hrec
  · intro ts hb hnc
    rcases hres : res.Chain with _ | ⟨first, rest⟩
    · rw [hres] at hb
      simp only [buildTipSets] at hb
      cases hb
      exact absurd (by simp) hnc
    · rw [hres] at hb
      simp only [buildTipSets] at hb
      split at hb
      next e hcur => cases hb
      next cur hcur =>
        split at hb
        next e2 hmore => cases hb
        next ts2 hmore =>
          cases hb
          obtain ⟨j, hj⟩ := processChainRest_mismatch rest cur 1 ts2 (by omega) hmore hnc
          refine ⟨j, ?_⟩
          simp only [processBlocksResponse, hres, hcur, hj]

/-- C2 witness: a correctly linked 2-tipset response is accepted and its
output is linked; a response whose second tipset is not the first's parent
is rejected with the bad-linkage error. -/
theorem processBlocksResponse_linkage_witness :
    (processBlocksResponse c2Req c2ResGood = .ok c2OutGood ∧
      List.Chain' (fun t u => t.parents = u.cids) c2OutGood) ∧
    (buildTipSets c2ResBad.Chain = .ok c2TsBad ∧
      ¬ List.Chain' (fun t u => t.parents = u.cids) c2TsBad ∧
      ∃ j, processBlocksResponse c2Req c2ResBad = .error (mkLinkErr j (j + 1))) := by
  have hncBad : ¬ List.Chain' (fun t u : TipSet => t.parents = u.cids) c2TsBad := by
    rw [show c2TsBad = [⟨[⟨1, [2], 10⟩], [1], [2], 10⟩, ⟨[⟨5, [6], 9⟩], [5], [6], 9⟩] from rfl]
    rw [List.chain'_cons]
    simp
  exact ⟨⟨rfl, (processBlocksResponse_linkage c2Req c2ResGood).1 c2OutGood rfl⟩,
    ⟨rfl, hncBad, (processBlocksResponse_linkage c2Req c2ResBad).2 c2TsBad rfl hncBad⟩⟩

/-- C3: contrary to the claim, `fetchCids` does not fail whenever the stream
closes before all indices are filled: with three requested cids and a stream
closing after two deliveries, the loop counter sits at `n - 1` when the
close is observed, the `break` path is taken, and the call succeeds with the
last index never filled (the source's own `FIXME` questions this check).  A
close with two or more indices missing does fail with the
failed-to-fetch-all error. -/
theorem fetchCids_close_off_by_one :
    fetchCids [1, 2, 3] (fun i _ st => .ok (st.set i true)) [⟨1, []⟩, ⟨2, []⟩]
        (List.replicate 3 false) = .ok [true, true, false]
    ∧ fetchCids [1, 2, 3] (fun i _ st => .ok (st.set i true)) [⟨1, []⟩]
        (List.replicate 3 false) = .error "failed to fetch all messages" :=
  ⟨rfl, rfl⟩

/-- C4 counterexample: the peer loop of `GetChainMessages` contains no
cancellation poll.  With the context cancelled from the start (the
cancellation oracle constantly true), the call still sends the request to
peer 0 and returns its chain instead of a cancellation error. -/
theorem getChainMessages_ignores_cancellation :
    getChainMessages c4Send (fun _ => true) c4Req [0] = (.ok [c4Bsts], [0]) := rfl

/-- C4 amended: `GetBlocks` observes cancellation at every iteration
boundary of its peer loop — once the context is cancelled it returns the
cancellation error without sending to any further peer — while the
`GetChainMessages` loop never consults the cancellation oracle at all
(`fetchCids` likewise passes `context.TODO()` to the block service). -/
theorem cancellation_observed (send : Nat → Except String BlockSyncResponse)
    (cancelled : Nat → Bool) (req : BlockSyncRequest) (p : Nat) (rest : List Nat)
    (i : Nat) (oerr : Option String) (hc : cancelled i = true) :
    getBlocksLoop send cancelled req (p :: rest) i oerr =
      (.error "blocksync getblocks failed: context canceled", [])
    ∧ ∀ (c2 : Nat → Bool) (total : Nat) (peers : List Nat) (j : Nat) (oe : Option String),
        getChainMessagesLoop send cancelled req total peers j oe =
          getChainMessagesLoop send c2 req total peers j oe := by
  constructor
  · rw [getBlocksLoop]
    simp [hc]
  · intro c2 total peers j oe
    exact gcmLoop_cancel_irrelevant send req total cancelled c2 peers j oe

/-- C4 witness: with the context cancelled before the first iteration,
`GetBlocks` returns the cancellation error without contacting peer 0. -/
theorem cancellation_observed_witness :
    ((fun _ : Nat => true) 0 = true) ∧
      getBlocksLoop c4Send (fun _ => true) c4Req [0] 0 none =
        (.error "blocksync getblocks failed: context canceled", []) :=
  ⟨rfl, (cancellation_observed c4Send (fun _ => true) c4Req 0 [] 0 none rfl).1⟩

/-- C5 counterexample: on a status-`OK` response with an empty chain,
`GetBlocks` does not fail with exactly the error
`got no blocks in successful blocksync response`: the error it returns is
that message wrapped by `success response from peer failed to process:`,
a different string. -/
theorem getBlocks_empty_chain_wrapped :
    (getBlocks c5Send (fun _ => false) c5Req [0]).1 =
      .error "success response from peer failed to process: got no blocks in successful blocksync response"
    ∧ "success response from peer failed to process: got no blocks in successful blocksync response" ≠
      "got no blocks in successful blocksync response" :=
  ⟨rfl, by decide⟩

/-- C5 amended: for every response with status `OK` and an empty chain
reached by the peer loop, `GetBlocks` fails — returning no tipsets — with
the error that wraps `got no blocks in successful blocksync response` in
`success response from peer failed to process:`. -/
theorem getBlocks_empty_chain_error (send : Nat → Except String BlockSyncResponse)
    (cancelled : Nat → Bool) (req : BlockSyncRequest) (p : Nat) (rest : List Nat)
    (i : Nat) (oerr : Option String) (res : BlockSyncResponse)
    (hc : cancelled i = false) (hs : send p = .ok res)
    (hst : res.Status = StatusOK) (hch : res.Chain = []) :
    getBlocksLoop send cancelled req (p :: rest) i oerr =
      (.error "success response from peer failed to process: got no blocks in successful blocksync response",
        [p]) := by
  rw [getBlocksLoop]
  simp only [hc, Bool.false_eq_true, if_false, hs]
  have hok : res.Status = StatusOK ∨ res.Status = StatusPartialResponse := Or.inl hst
  rw [if_pos hok]
  simp only [processBlocksResponse, hch]
  rfl

/-- C5 witness: the amended behaviour at the concrete fixture. -/
theorem getBlocks_empty_chain_error_witness :
    ((fun _ : Nat => false) 0 = false ∧ c5Send 0 = .ok ⟨0, "", []⟩) ∧
      getBlocksLoop c5Send (fun _ => false) c5Req [0] 0 none =
        (.error "success response from peer failed to process: got no blocks in successful blocksync response",
          [0]) :=
  ⟨⟨rfl, rfl⟩,
    getBlocks_empty_chain_error c5Send (fun _ => false) c5Req 0 [] 0 none
      ⟨0, "", []⟩ rfl rfl rfl rfl⟩

/-- C6: contrary to the claim, `FetchMessagesByCids` can return a partial
output: requesting cids 1 and 2 while the block service delivers only cid 1
and then closes yields a `len(cids)`-element list whose second slot was
never decoded (it is `none`/nil), rather than a failure — the off-by-one of
C3 surfacing to the callers.  Duplicate and unsolicited deliveries do fail
as claimed, with no output. -/
theorem fetchMessagesByCids_partial_output :
    fetchMessagesByCids (fun b => .ok b.cid) [1, 2] [⟨1, []⟩] = .ok [some 1, none]
    ∧ fetchMessagesByCids (fun b => .ok b.cid) [1, 2] [⟨1, []⟩, ⟨1, []⟩] =
        .error "received duplicate message"
    ∧ fetchMessagesByCids (fun b => .ok b.cid) [1, 2] [⟨3, []⟩] =
        .error "received message we didnt ask for" :=
  ⟨rfl, rfl, rfl⟩

/-- C7: the shuffle touches exactly the first `min(5, len)` entries — the
suffix is returned unchanged, the new prefix is a permutation of the old
prefix (for every permutation `rand.Perm` can draw), and the whole list
remains a permutation of the input. -/
theorem shufflePref_perm (perm : List Nat) (peers : List Nat)
    (hperm : perm.Perm (List.range (min 5 peers.length))) :
    (shufflePref perm peers).drop (min 5 peers.length) =
      peers.drop (min 5 peers.length)
    ∧ ((shufflePref perm peers).take (min 5 peers.length)).Perm
        (peers.take (min 5 peers.length))
    ∧ (shufflePref perm peers).Perm peers := by
  have hkle : min 5 peers.length ≤ peers.length := Nat.min_le_right 5 peers.length
  have hmaplen : (perm.map (fun v => peers.getD v 0)).length = min 5 peers.length := by
    have := hperm.length_eq
    simp only [List.length_range] at this
    simp [this]
  have hmap : (perm.map (fun v => peers.getD v 0)).Perm
      (peers.take (min 5 peers.length)) := by
    have h1 := hperm.map (fun v => peers.getD v 0)
    rwa [map_getD_range peers (min 5 peers.length) hkle] at h1
  refine ⟨?_, ?_, ?_⟩
  · rw [shufflePref]
    exact List.drop_left' hmaplen
  · rw [shufflePref, List.take_left' hmaplen]
    exact hmap
  · rw [shufflePref]
    have h2 := hmap.append_right (peers.drop (min 5 peers.length))
    rwa [List.take_append_drop] at h2

/-- C7 witness: shuffling `[10, 20, 30]` with the permutation `[2, 0, 1]`. -/
theorem shufflePref_perm_witness :
    ([2, 0, 1] : List Nat).Perm (List.range (min 5 ([10, 20, 30] : List Nat).length)) ∧
      (shufflePref [2, 0, 1] [10, 20, 30]).Perm [10, 20, 30] :=
  ⟨by decide, (shufflePref_perm [2, 0, 1] [10, 20, 30] (by decide)).2.2⟩

/-- C8: `fetchBlocksBlockSync` makes exactly one tracker report per call,
and it is the one the spec prescribes: stream-open failure removes the peer
from tracking, a write or read failure logs a failure observation, a
successfully decoded response logs a success observation. -/
theorem fetchBlocksBlockSync_tracker_report (openR writeR : Except String Unit)
    (readR : Except String BlockSyncResponse) :
    (fetchBlocksBlockSync openR writeR readR).2 =
      [trackerReportSpec openR writeR readR] := by
  cases openR <;> cases writeR <;> cases readR <;> rfl

/-- C9: during `UnmarshalCBOR`, any `DealIDs` array header declaring more
than 8192 elements is rejected with the array-too-large error, while a
declared length of exactly 8192 is accepted (a full 8192-element encoding
decodes successfully); a wrong top-level major type, a wrong top-level field
count, a non-type-7 boolean and a type-7 value other than 20/21 are each
rejected with their explicit errors. -/
theorem unmarshalDealMapping_bounds (n : Nat) (rest rest2 : List Nat)
    (hn : 8192 < n) (hread : readHeader rest = .ok (4, n, rest2)) :
    unmarshalDealMapping (131 :: rest) =
      .error ("t.DealIDs: array too large (" ++ toString n ++ ")")
    ∧ unmarshalDealMapping (marshalDealMapping dm8192) = .ok (dm8192, [])
    ∧ unmarshalDealMapping [0] = .error "cbor input should be of type array"
    ∧ unmarshalDealMapping [130] = .error "cbor input had wrong number of fields"
    ∧ unmarshalDealMapping [131, 128, 0, 0] = .error "booleans must be major type 7"
    ∧ unmarshalDealMapping [131, 128, 0, 246] =
      .error "booleans are either major type 7, value 20 or 21 (got 22)" := by
  refine ⟨?_, ?_, rfl, rfl, rfl, rfl⟩
  · have h131 : readHeader (131 :: rest) = .ok (4, 3, rest) := by simp [readHeader]
    rw [unmarshalDealMapping, h131]
    dsimp only
    rw [hread]
    dsimp only
    simp [hn]
  · have e1 : dm8192.DealIDs = List.replicate 8192 0 := rfl
    have e2 : dm8192.Allocated = 0 := rfl
    have := unmarshal_marshal dm8192
      (by rw [e1, List.length_replicate])
      (by
        rw [e1]
        intro v hv
        have hv0 := List.eq_of_mem_replicate hv
        omega)
      (by rw [e2]; omega) []
    simpa using this

/-- C9 witness: the bound at length 8193, whose header is the three bytes
`0x99 0x20 0x01`. -/
theorem unmarshalDealMapping_bounds_witness :
    (8192 < 8193 ∧ readHeader [153, 32, 1] = .ok (4, 8193, [])) ∧
      unmarshalDealMapping (131 :: [153, 32, 1]) =
        .error ("t.DealIDs: array too large (" ++ toString 8193 ++ ")") :=
  ⟨⟨by decide, rfl⟩,
    (unmarshalDealMapping_bounds 8193 [153, 32, 1] [] (by decide) rfl).1⟩

/-- C10: round-trip law of the codec — for every `DealMapping` whose
`DealIDs` list has at most 8192 elements (and whose numeric fields fit in
`uint64`, automatic in Go), decoding the bytes of `MarshalCBOR` via
`UnmarshalCBOR` recovers the value exactly, consuming the whole encoding. -/
theorem dealMapping_round_trip (t : DealMapping) (h1 : t.DealIDs.length ≤ 8192)
    (h2 : ∀ v ∈ t.DealIDs, v < 18446744073709551616)
    (h3 : t.Allocated < 18446744073709551616) :
    unmarshalDealMapping (marshalDealMapping t) = .ok (t, []) := by
  have := unmarshal_marshal t h1 h2 h3 []
  simpa using this

/-- C10 witness: the round trip at a small concrete value. -/
theorem dealMapping_round_trip_witness :
    (([1, 2] : List Nat).length ≤ 8192 ∧
      (∀ v ∈ ([1, 2] : List Nat), v < 18446744073709551616) ∧
      (3 : Nat) < 18446744073709551616) ∧
    unmarshalDealMapping (marshalDealMapping ⟨[1, 2], 3, true⟩) = .ok (⟨[1, 2], 3, true⟩, []) :=
  ⟨⟨by decide, by decide, by decide⟩,
    dealMapping_round_trip ⟨[1, 2], 3, true⟩ (by decide) (by decide) (by decide)⟩

end Lotus
